import Mathlib

set_option maxRecDepth 100000

/-! Embedding of `resume_matcher_app.py`: the GPT-response section parser
(`extract_skills_from_gpt_output`, `extract_suggestions`), the derived match
score, the skill table, and the submission pipeline.  Strings are modelled as
`List Char`; the regular expressions of the source are unfolded into their
operational meaning (leftmost case-insensitive search, greedy `[:\s]*`, lazy
capture up to `\n\s*\n` or `$`). -/

/-- Python `\s` on the characters this program manipulates. -/
def isPySpace (c : Char) : Bool :=
  c = ' ' || c = '\t' || c = '\n' || c = '\r' || c = '\x0b' || c = '\x0c'

/-- A character consumed by the header suffix `[:\s]*`: colon or whitespace. -/
def isHdrWs (c : Char) : Bool := c = ':' || isPySpace c

/-- ASCII lowering, modelling `re.IGNORECASE` on the ASCII header patterns. -/
def lowerAscii (c : Char) : Char :=
  if 'A' ≤ c && c ≤ 'Z' then Char.ofNat (c.toNat + 32) else c

/-- Does `pat` match case-insensitively at the start of `s`?  On success
returns the remainder of `s` after the matched pattern. -/
def ciMatchAt : List Char → List Char → Option (List Char)
  | [], s => some s
  | _ :: _, [] => none
  | p :: ps, c :: cs => if lowerAscii p = lowerAscii c then ciMatchAt ps cs else none

/-- `re.search` for a literal pattern under `re.IGNORECASE`: remainder of `s`
after the leftmost case-insensitive occurrence of `pat`, if any. -/
def findCI (pat : List Char) : List Char → Option (List Char)
  | [] => ciMatchAt pat []
  | c :: cs =>
    match ciMatchAt pat (c :: cs) with
    | some r => some r
    | none => findCI pat cs

/-- `\s*\n` can match at the start of `s` (the tail of the blank-line
terminator `\n\s*\n` of the capture group). -/
def hasBlankThen : List Char → Bool
  | [] => false
  | c :: cs => if c = '\n' then true else if isPySpace c then hasBlankThen cs else false

/-- The lazy capture `([\s\S]*?)(?:\n\s*\n|$)`: take characters until the
first position where a blank line (`\n\s*\n`) starts, or where `$` matches
(end of input, or just before a final trailing newline). -/
def captureSection : List Char → List Char
  | [] => []
  | c :: rest =>
      if c = '\n' && (hasBlankThen rest || rest.isEmpty) then []
      else c :: captureSection rest

/-- A line-boundary character for Python `str.splitlines`. -/
def isLB (c : Char) : Bool :=
  c = '\n' || c = '\r' || c = '\x0b' || c = '\x0c' ||
  c = '\x1c' || c = '\x1d' || c = '\x1e' || c = '\x85' ||
  c = '\u2028' || c = '\u2029'

/-- Collapse each `"\r\n"` pair to `"\n"` (left to right), so that the
`"\r\n"` line boundary of Python `str.splitlines` counts as one boundary. -/
def normNL : List Char → List Char
  | [] => []
  | [c] => [c]
  | c :: d :: rest =>
    if c = '\r' && d = '\n' then '\n' :: normNL rest
    else c :: normNL (d :: rest)

/-- Worker for `splitlines` on a `"\r\n"`-normalised string; `acc` is the
reversed current line. -/
def splitlinesGo : List Char → List Char → List (List Char)
  | [], acc => [acc.reverse]
  | c :: rest, acc =>
    if isLB c then acc.reverse :: (if rest.isEmpty then [] else splitlinesGo rest [])
    else splitlinesGo rest (c :: acc)

/-- Python `str.splitlines` (no trailing empty line for a trailing
terminator; empty string yields no lines). -/
def splitlines (s : List Char) : List (List Char) :=
  if s.isEmpty then [] else splitlinesGo (normNL s) []

/-- The strip set of `s.strip(" -•\t")`. -/
def stripSet : List Char := [' ', '-', '•', '\t']

/-- Python `s.strip(chars)`: drop characters of `set` from both ends. -/
def stripChars (set s : List Char) : List Char :=
  ((s.dropWhile (set.contains ·)).reverse.dropWhile (set.contains ·)).reverse

/-- Truthiness of `s.strip()`: `s` contains a non-whitespace character. -/
def pyBool (s : List Char) : Bool := s.any (fun c => !isPySpace c)

/-- `[s.strip(" -•\t") for s in block.splitlines() if s.strip()]`. -/
def cleanLines (block : List Char) : List (List Char) :=
  ((splitlines block).filter pyBool).map (stripChars stripSet)

/-- Greedy `[:\s]*` after a matched header. -/
def dropHeaderWs (s : List Char) : List Char := s.dropWhile isHdrWs

/-- One section scan of `extract_skills_from_gpt_output`:
`re.search(pat + "[:\s]*([\s\S]*?)(?:\n\s*\n|$)", gpt_text, re.IGNORECASE)`,
then the cleaned lines of the captured group; `none` when the header is not
found. -/
def extractSection (pat gpt_text : List Char) : Option (List (List Char)) :=
  match findCI pat gpt_text with
  | none => none
  | some rest => some (cleanLines (captureSection (dropHeaderWs rest)))

def patMatched : List Char := "Matched Skills".toList
def patMissing : List Char := "Missing Skills".toList
def patSugg : List Char := "Suggestions".toList
def optSugg : List Char := " to improve the resume".toList

/-- `extract_skills_from_gpt_output` of the source: the matched and missing
skill lists, each empty when its header is absent. -/
def extract_skills_from_gpt_output (gpt_text : List Char) :
    List (List Char) × List (List Char) :=
  ((extractSection patMatched gpt_text).getD [],
   (extractSection patMissing gpt_text).getD [])

/-- `extract_suggestions` of the source: the pattern is
`Suggestions(?: to improve the resume)?[:\s]*([\s\S]*?)(?:\n\s*\n|$)`; the
optional group is consumed greedily when it matches. -/
def extract_suggestions (gpt_text : List Char) : List (List Char) :=
  match findCI patSugg gpt_text with
  | none => []
  | some rest =>
      let rest2 := match ciMatchAt optSugg rest with
        | some r => r
        | none => rest
      cleanLines (captureSection (dropHeaderWs rest2))

/-- Python's `round` tie policy: round half to even. -/
def roundHalfEven (q : ℚ) : ℤ :=
  if q - ⌊q⌋ < 1 / 2 then ⌊q⌋
  else if 1 / 2 < q - ⌊q⌋ then ⌊q⌋ + 1
  else if ⌊q⌋ % 2 = 0 then ⌊q⌋ else ⌊q⌋ + 1

/-- `round(x, 2)` on an exact rational value. -/
def pyRound2 (q : ℚ) : ℚ := (roundHalfEven (q * 100) : ℚ) / 100

/-- Line 157 of the source:
`score = round(100 * len(matched_skills) / max(1, len(matched_skills) + len(missing_skills)), 2)`,
with the arithmetic carried out exactly. -/
def score (matched missing : List (List Char)) : ℚ :=
  pyRound2 (100 * (matched.length : ℚ) /
    ((max 1 (matched.length + missing.length) : ℕ) : ℚ))

/-- The two columns of the `skill_df` DataFrame (lines 168-171). -/
def skill_df (matched missing : List (List Char)) :
    List (List Char) × List (List Char) :=
  (matched ++ missing,
   List.replicate matched.length ("Matched".toList) ++
     List.replicate missing.length ("Missing".toList))

/-- The rows of a two-column DataFrame: the columns aligned positionally. -/
def dfRows (df : List (List Char) × List (List Char)) :
    List (List Char × List Char) :=
  df.1.zip df.2

/-- `"\n".join` of a list of strings (also the separator layout of the
bullet blocks inside a reply). -/
def joinNL : List (List Char) → List Char
  | [] => []
  | [l] => l
  | l :: ls => l ++ '\n' :: joinNL ls

/-- The in-band failure marker tested at line 120: `"❌ Error"`. -/
def errFlag : List Char := "❌ Error".toList

/-- The failure string built by `extract_text_from_pdf` (line 45). -/
def errReadFlag : List Char := "❌ Error reading PDF: ".toList

/-- `text.startswith(pat)`. -/
def startsWithList : List Char → List Char → Bool
  | [], _ => true
  | _ :: _, [] => false
  | p :: ps, c :: cs => p = c && startsWithList ps cs

/-- `extract_text_from_pdf` (lines 39-45): the PDF library either yields the
page texts (joined with newlines) or raises, in which case the function
returns the in-band error string. -/
def extract_text_from_pdf (raw : Except (List Char) (List (List Char))) :
    List Char :=
  match raw with
  | .ok pages => joinNL pages
  | .error e => errReadFlag ++ e

/-- Outcome of one submission of the UI pipeline (lines 116-181). -/
inductive SubmissionOutcome where
  | errorShown (msg : List Char)
  | stopped
  | rendered (matched missing suggestions : List (List Char)) (scorePercent : ℚ)
deriving DecidableEq

/-- The submission pipeline (lines 116-173): branch on the in-band error
marker before any remote call; the remote completion is an oracle argument;
`if not result: st.stop()`; otherwise parse and derive the score. -/
def run_submission (resume_text : List Char)
    (gpt : List Char → List Char → Option (List Char)) (jd : List Char) :
    SubmissionOutcome :=
  if startsWithList errFlag resume_text then .errorShown resume_text
  else
    match gpt resume_text jd with
    | none => .stopped
    | some result =>
        if result.isEmpty then .stopped
        else
          let p := extract_skills_from_gpt_output result
          .rendered p.1 p.2 (extract_suggestions result) (score p.1 p.2)

/-- `pat` and `hdr` have the same length and agree case-insensitively. -/
def eqCI : List Char → List Char → Bool
  | [], [] => true
  | p :: ps, c :: cs => (lowerAscii p = lowerAscii c) && eqCI ps cs
  | _, _ => false

/-- `pat` matches case-insensitively at some position of `pre ++ s` strictly
before the end of `pre` (so the leftmost `re.search` hit would come before
position `pre.length`). -/
def occursBeforeCI (pat : List Char) : List Char → List Char → Bool
  | [], _ => false
  | c :: pre, s => (ciMatchAt pat (c :: (pre ++ s))).isSome || occursBeforeCI pat pre s

/-- A well-formed content line of a reply section: free of line boundaries
and not blank. -/
def goodLine (l : List Char) : Bool :=
  l.all (fun c => !isLB c) && l.any (fun c => !isPySpace c)

/-- A bullet-line payload: starts with a character that the header pattern
suffix `[:\s]*` cannot absorb, and is free of line boundaries. -/
def goodContent : List Char → Bool
  | [] => false
  | a :: rest => !isHdrWs a && (a :: rest).all (fun c => !isLB c)

/-- A reply section in the layout the prompt asks the model for: a header,
a delimiter, newline-separated bullet lines, then a blank line. -/
def sectionBlock (hdr delim : List Char) (ls : List (List Char)) (ws : List Char) :
    List Char :=
  hdr ++ delim ++ joinNL ls ++ '\n' :: ws ++ ['\n']

/-- Bullet lines: each content line prefixed with the bullet marker `b`. -/
def bulleted (b : Char) (cs : List (List Char)) : List (List Char) :=
  cs.map (fun c => b :: c)

/-- A full three-section reply in the layout the prompt requests, with all
bullet lines using marker `b`. -/
def threeSectionReply (b : Char) (lsM lsN lsS : List (List Char)) : List Char :=
  sectionBlock patMatched [':', '\n'] (bulleted b lsM) [] ++
    (sectionBlock patMissing [':', '\n'] (bulleted b lsN) [] ++
      (sectionBlock patSugg [':', '\n'] (bulleted b lsS) [] ++ []))

theorem ciMatchAt_of_eqCI :
    ∀ (pat hdr : List Char), eqCI pat hdr = true →
      ∀ r, ciMatchAt pat (hdr ++ r) = some r
  | [], [], _, r => rfl
  | p :: ps, c :: cs, h, r => by
    simp only [eqCI, Bool.and_eq_true, decide_eq_true_eq] at h
    simpa [ciMatchAt, h.1] using ciMatchAt_of_eqCI ps cs h.2 r
  | [], _ :: _, h, _ => by simp [eqCI] at h
  | _ :: _, [], h, _ => by simp [eqCI] at h

theorem findCI_of_ciMatchAt (pat s r : List Char) (h : ciMatchAt pat s = some r) :
    findCI pat s = some r := by
  cases s with
  | nil => simpa [findCI] using h
  | cons c cs => simp [findCI, h]

theorem findCI_append (pat : List Char) :
    ∀ (pre s : List Char), occursBeforeCI pat pre s = false →
      findCI pat (pre ++ s) = findCI pat s
  | [], s, _ => rfl
  | c :: pre, s, h => by
    simp only [occursBeforeCI, Bool.or_eq_false_iff] at h
    have h2 := findCI_append pat pre s h.2
    have h1 : ciMatchAt pat (c :: (pre ++ s)) = none := by
      cases hm : ciMatchAt pat (c :: (pre ++ s)) with
      | none => rfl
      | some r => rw [hm] at h; simp at h
    simp [findCI, h1, h2]

theorem dropWhile_append_all {p : Char → Bool} :
    ∀ (l r : List Char), l.all p = true → (l ++ r).dropWhile p = r.dropWhile p
  | [], r, _ => rfl
  | c :: l, r, h => by
    simp only [List.all_cons, Bool.and_eq_true] at h
    simp [List.dropWhile_cons, h.1, dropWhile_append_all l r h.2]

theorem dropWhile_cons_neg {p : Char → Bool} (a : Char) (l : List Char)
    (h : p a = false) : (a :: l).dropWhile p = a :: l := by
  simp [List.dropWhile_cons, h]

theorem not_nl_of_not_isLB {c : Char} (h : isLB c = false) : ¬c = '\n' := by
  simp only [isLB, Bool.or_eq_false_iff, decide_eq_false_iff_not] at h
  exact h.1.1.1.1.1.1.1.1.1

theorem not_cr_of_not_isLB {c : Char} (h : isLB c = false) : ¬c = '\r' := by
  simp only [isLB, Bool.or_eq_false_iff, decide_eq_false_iff_not] at h
  exact h.1.1.1.1.1.1.1.1.2

theorem captureSection_append_noLB :
    ∀ (l rest : List Char), l.all (fun c => !isLB c) = true →
      captureSection (l ++ rest) = l ++ captureSection rest
  | [], rest, _ => rfl
  | c :: l, rest, h => by
    simp only [List.all_cons, Bool.and_eq_true, Bool.not_eq_true'] at h
    have hc : ¬c = '\n' := not_nl_of_not_isLB h.1
    simp [captureSection, hc, captureSection_append_noLB l rest h.2]

theorem hasBlankThen_line :
    ∀ (l rest : List Char), goodLine l = true → hasBlankThen (l ++ rest) = false
  | [], _, hl => by simp [goodLine] at hl
  | c :: cs, rest, hl => by
    simp only [goodLine, List.all_cons, List.any_cons, Bool.and_eq_true,
      Bool.or_eq_true, Bool.not_eq_true'] at hl
    have hcnl : ¬c = '\n' := not_nl_of_not_isLB hl.1.1
    by_cases hsp : isPySpace c = true
    · have hcs : goodLine cs = true := by
        simp only [goodLine, Bool.and_eq_true]
        refine ⟨hl.1.2, ?_⟩
        rcases hl.2 with h | h
        · rw [hsp] at h; cases h
        · exact h
      simp [hasBlankThen, hcnl, hsp, hasBlankThen_line cs rest hcs]
    · simp [hasBlankThen, hcnl, hsp]

theorem hasBlankThen_ws (ws post : List Char) (h : ws.all isPySpace = true) :
    hasBlankThen (ws ++ '\n' :: post) = true := by
  induction ws with
  | nil => simp [hasBlankThen]
  | cons c cs ih =>
    simp only [List.all_cons, Bool.and_eq_true] at h
    by_cases hc : c = '\n'
    · simp [hasBlankThen, hc]
    · simp [hasBlankThen, hc, h.1, ih h.2]

theorem captureSection_term (ws post : List Char) (h : ws.all isPySpace = true) :
    captureSection ('\n' :: (ws ++ '\n' :: post)) = [] := by
  simp [captureSection, hasBlankThen_ws ws post h]

theorem goodLine_all_not_isLB {l : List Char} (h : goodLine l = true) :
    l.all (fun c => !isLB c) = true := by
  simp only [goodLine, Bool.and_eq_true] at h; exact h.1

theorem goodLine_pyBool {l : List Char} (h : goodLine l = true) : pyBool l = true := by
  simp only [goodLine, Bool.and_eq_true] at h; exact h.2

theorem goodLine_ne_nil {l : List Char} (h : goodLine l = true) : l ≠ [] := by
  intro he; subst he; simp [goodLine] at h

theorem joinNL_cons (l : List Char) (tl : List (List Char)) (h : tl ≠ []) :
    joinNL (l :: tl) = l ++ '\n' :: joinNL tl := by
  cases tl with
  | nil => cases h rfl
  | cons a b => rfl

theorem joinNL_ne_nil (l : List Char) (tl : List (List Char)) (h : l ≠ []) :
    joinNL (l :: tl) ≠ [] := by
  cases tl with
  | nil => simpa [joinNL]
  | cons a b => rw [joinNL_cons l (a :: b) (by simp)]; simp

theorem captureSection_joinNL :
    ∀ (ls : List (List Char)) (ws post : List Char),
      ls.all goodLine = true → ws.all isPySpace = true →
      captureSection (joinNL ls ++ '\n' :: (ws ++ '\n' :: post)) = joinNL ls
  | [], ws, post, _, hws => by
    simpa [joinNL] using captureSection_term ws post hws
  | [l], ws, post, hls, hws => by
    simp only [List.all_cons, List.all_nil, Bool.and_eq_true] at hls
    rw [show joinNL [l] = l from rfl,
      captureSection_append_noLB l _ (goodLine_all_not_isLB hls.1),
      captureSection_term ws post hws]
    simp
  | l :: l2 :: tl, ws, post, hls, hws => by
    simp only [List.all_cons, Bool.and_eq_true] at hls
    obtain ⟨hl, hl2, htl⟩ := hls
    have hJT : hasBlankThen (joinNL (l2 :: tl) ++ '\n' :: (ws ++ '\n' :: post)) = false := by
      cases tl with
      | nil => simpa [joinNL] using hasBlankThen_line l2 _ hl2
      | cons a b =>
        rw [joinNL_cons l2 (a :: b) (by simp), List.append_assoc]
        exact hasBlankThen_line l2 _ hl2
    have hne : joinNL (l2 :: tl) ≠ [] := joinNL_ne_nil l2 tl (goodLine_ne_nil hl2)
    have hemp : (joinNL (l2 :: tl) ++ '\n' :: (ws ++ '\n' :: post)).isEmpty = false := by
      cases hj : joinNL (l2 :: tl) with
      | nil => exact absurd hj hne
      | cons a b => rfl
    have hrec := captureSection_joinNL (l2 :: tl) ws post
      (by simp [List.all_cons, hl2, htl]) hws
    rw [joinNL_cons l (l2 :: tl) (by simp), List.append_assoc, List.cons_append,
      captureSection_append_noLB l _ (goodLine_all_not_isLB hl)]
    rw [show captureSection ('\n' :: (joinNL (l2 :: tl) ++ '\n' :: (ws ++ '\n' :: post)))
        = '\n' :: captureSection (joinNL (l2 :: tl) ++ '\n' :: (ws ++ '\n' :: post)) by
      simp [captureSection, hJT, hemp]]
    rw [hrec]

theorem normNL_of_not_mem_cr : ∀ (s : List Char), '\r' ∉ s → normNL s = s
  | [], _ => rfl
  | [_], _ => rfl
  | c :: d :: rest, h => by
    have hc : ¬c = '\r' := fun he => h (by simp [he])
    have hrest : '\r' ∉ d :: rest := fun hm => h (List.mem_cons_of_mem c hm)
    have hcd : (decide (c = '\r') && decide (d = '\n')) = false := by simp [hc]
    simp [normNL, hcd, normNL_of_not_mem_cr (d :: rest) hrest]

theorem splitlinesGo_append :
    ∀ (l r acc : List Char), l.all (fun c => !isLB c) = true →
      splitlinesGo (l ++ r) acc = splitlinesGo r (l.reverse ++ acc)
  | [], r, acc, _ => by simp
  | c :: l, r, acc, h => by
    simp only [List.all_cons, Bool.and_eq_true, Bool.not_eq_true'] at h
    simp [splitlinesGo, h.1, splitlinesGo_append l r (c :: acc) h.2,
      List.reverse_cons, List.append_assoc]

theorem splitlinesGo_joinNL :
    ∀ (tl : List (List Char)) (l acc : List Char),
      (l :: tl).all goodLine = true →
      splitlinesGo (joinNL (l :: tl)) acc = (acc.reverse ++ l) :: tl
  | [], l, acc, h => by
    simp only [List.all_cons, List.all_nil, Bool.and_eq_true] at h
    have := splitlinesGo_append l [] acc (goodLine_all_not_isLB h.1)
    simpa [splitlinesGo] using this
  | l2 :: tl', l, acc, h => by
    simp only [List.all_cons, Bool.and_eq_true] at h
    obtain ⟨hl, hl2, htl⟩ := h
    have hne : joinNL (l2 :: tl') ≠ [] := joinNL_ne_nil l2 tl' (goodLine_ne_nil hl2)
    have hemp : (joinNL (l2 :: tl')).isEmpty = false := by
      cases hj : joinNL (l2 :: tl') with
      | nil => exact absurd hj hne
      | cons a b => rfl
    have hrec := splitlinesGo_joinNL tl' l2 [] (by simp [List.all_cons, hl2, htl])
    rw [joinNL_cons l (l2 :: tl') (by simp),
      splitlinesGo_append l ('\n' :: joinNL (l2 :: tl')) acc (goodLine_all_not_isLB hl)]
    simp [splitlinesGo, hemp, hrec, show isLB '\n' = true by decide]

theorem mem_joinNL :
    ∀ (ls : List (List Char)) (x : Char), x ∈ joinNL ls → x = '\n' ∨ ∃ l ∈ ls, x ∈ l
  | [], _, h => by cases h
  | [l], x, h => Or.inr ⟨l, by simp, h⟩
  | l :: l2 :: tl, x, h => by
    rw [joinNL_cons l (l2 :: tl) (by simp)] at h
    rcases List.mem_append.mp h with h | h
    · exact Or.inr ⟨l, by simp, h⟩
    · rcases List.mem_cons.mp h with h | h
      · exact Or.inl h
      · rcases mem_joinNL (l2 :: tl) x h with h | ⟨l', hl', hx⟩
        · exact Or.inl h
        · exact Or.inr ⟨l', List.mem_cons_of_mem _ hl', hx⟩

theorem cr_not_mem_joinNL (ls : List (List Char)) (h : ls.all goodLine = true) :
    '\r' ∉ joinNL ls := by
  intro hm
  rcases mem_joinNL ls '\r' hm with he | ⟨l, hl, hx⟩
  · exact absurd he (by decide)
  · have := List.all_eq_true.mp h l hl
    have := List.all_eq_true.mp (goodLine_all_not_isLB this) '\r' hx
    simp [isLB] at this

theorem splitlines_joinNL (l : List Char) (tl : List (List Char))
    (h : (l :: tl).all goodLine = true) :
    splitlines (joinNL (l :: tl)) = l :: tl := by
  have hl : goodLine l = true := by
    simp only [List.all_cons, Bool.and_eq_true] at h; exact h.1
  have hne : joinNL (l :: tl) ≠ [] := joinNL_ne_nil l tl (goodLine_ne_nil hl)
  have hemp : (joinNL (l :: tl)).isEmpty = false := by
    cases hj : joinNL (l :: tl) with
    | nil => exact absurd hj hne
    | cons a b => rfl
  rw [splitlines, hemp, normNL_of_not_mem_cr _ (cr_not_mem_joinNL _ h)]
  simpa using splitlinesGo_joinNL tl l [] h

theorem cleanLines_joinNL (l : List Char) (tl : List (List Char))
    (h : (l :: tl).all goodLine = true) :
    cleanLines (joinNL (l :: tl)) = (l :: tl).map (stripChars stripSet) := by
  rw [cleanLines, splitlines_joinNL l tl h, List.filter_eq_self.mpr]
  intro a ha
  exact goodLine_pyBool (List.all_eq_true.mp h a ha)

theorem allImp {p q : Char → Bool} (h : ∀ c, p c = true → q c = true) :
    ∀ l : List Char, l.all p = true → l.all q = true := by
  intro l hl
  rw [List.all_eq_true] at hl ⊢
  exact fun x hx => h x (hl x hx)

theorem spaceTab_stripSet {c : Char} (h : (c = ' ' || c = '\t') = true) :
    stripSet.contains c = true := by
  simp only [Bool.or_eq_true, decide_eq_true_eq] at h
  rcases h with h | h <;> subst h <;> decide

theorem spaceTab_isHdrWs {c : Char} (h : (c = ' ' || c = '\t') = true) :
    isHdrWs c = true := by
  simp only [Bool.or_eq_true, decide_eq_true_eq] at h
  rcases h with h | h <;> subst h <;> decide

theorem spaceTab_isPySpace {c : Char} (h : (c = ' ' || c = '\t') = true) :
    isPySpace c = true := by
  simp only [Bool.or_eq_true, decide_eq_true_eq] at h
  rcases h with h | h <;> subst h <;> decide

theorem isPySpace_false_of_hdrWs {a : Char} (h : isHdrWs a = false) :
    isPySpace a = false := by
  simp only [isHdrWs, Bool.or_eq_false_iff] at h
  exact h.2

theorem any_not_of_all {l : List Char} (h : l.all isPySpace = true) :
    l.any (fun c => !isPySpace c) = false := by
  induction l with
  | nil => rfl
  | cons c cs ih =>
    simp only [List.all_cons, Bool.and_eq_true] at h
    simp [List.any_cons, h.1, ih h.2]

theorem all_takeWhile (p : Char → Bool) : ∀ l : List Char, (l.takeWhile p).all p = true
  | [] => rfl
  | c :: l => by
    cases hc : p c with
    | true => simp [List.takeWhile_cons, hc, all_takeWhile p l]
    | false => simp [List.takeWhile_cons, hc]

theorem dropWhile_head_not (p : Char → Bool) :
    ∀ (l : List Char) (a : Char) (rest : List Char),
      l.dropWhile p = a :: rest → p a = false
  | [], a, rest, h => by simp at h
  | c :: l, a, rest, h => by
    cases hc : p c with
    | true =>
      rw [List.dropWhile_cons] at h
      simp only [hc, if_true] at h
      exact dropWhile_head_not p l a rest h
    | false =>
      simp only [List.dropWhile_cons, hc, Bool.false_eq_true, if_false,
        List.cons.injEq] at h
      rw [← h.1]; exact hc

theorem stripChars_dropAll (set t s : List Char)
    (h : t.all (set.contains ·) = true) :
    stripChars set (t ++ s) = stripChars set s := by
  simp only [stripChars, dropWhile_append_all t s h]

theorem joinNL_first_append (t d : List Char) (tl : List (List Char)) :
    joinNL ((t ++ d) :: tl) = t ++ joinNL (d :: tl) := by
  cases tl with
  | nil => simp [joinNL]
  | cons a b =>
    rw [joinNL_cons _ _ (by simp), joinNL_cons d _ (by simp), List.append_assoc]

theorem goodLine_dropHdrWs (l1 : List Char) (hl1 : goodLine l1 = true)
    (hrun : (l1.takeWhile isHdrWs).all (fun c => c = ' ' || c = '\t') = true) :
    goodLine (l1.dropWhile isHdrWs) = true := by
  have hsplit : l1.takeWhile isHdrWs ++ l1.dropWhile isHdrWs = l1 :=
    List.takeWhile_append_dropWhile isHdrWs l1
  have hallLB : (l1.takeWhile isHdrWs ++ l1.dropWhile isHdrWs).all (fun c => !isLB c) = true := by
    rw [hsplit]; exact goodLine_all_not_isLB hl1
  rw [List.all_append, Bool.and_eq_true] at hallLB
  rcases hd : l1.dropWhile isHdrWs with _ | ⟨a, rest⟩
  · exfalso
    have hps : l1.all isPySpace = true := by
      rw [← hsplit, hd, List.append_nil]
      exact allImp (fun c hc => spaceTab_isPySpace hc) _ hrun
    have h2 := goodLine_pyBool hl1
    rw [pyBool, any_not_of_all hps] at h2
    cases h2
  · have hda : isHdrWs a = false := dropWhile_head_not isHdrWs l1 a rest hd
    have hps : isPySpace a = false := isPySpace_false_of_hdrWs hda
    rw [hd] at hallLB
    simp [goodLine, hallLB.2, List.any_cons, hps]

theorem stripChars_dropHdrWs (l1 : List Char)
    (hrun : (l1.takeWhile isHdrWs).all (fun c => c = ' ' || c = '\t') = true) :
    stripChars stripSet (l1.dropWhile isHdrWs) = stripChars stripSet l1 := by
  conv_rhs => rw [← List.takeWhile_append_dropWhile isHdrWs l1]
  rw [stripChars_dropAll stripSet _ _ (allImp (fun c hc => spaceTab_stripSet hc) _ hrun)]

theorem dropHeaderWs_structured (delim l1 : List Char) (ls2 : List (List Char))
    (T : List Char)
    (hdelim : delim.all isHdrWs = true)
    (hl1 : goodLine l1 = true)
    (hrun : (l1.takeWhile isHdrWs).all (fun c => c = ' ' || c = '\t') = true) :
    dropHeaderWs (delim ++ (joinNL (l1 :: ls2) ++ T))
      = joinNL (l1.dropWhile isHdrWs :: ls2) ++ T := by
  have hsplit : l1.takeWhile isHdrWs ++ l1.dropWhile isHdrWs = l1 :=
    List.takeWhile_append_dropWhile isHdrWs l1
  have hjoin : joinNL (l1 :: ls2)
      = l1.takeWhile isHdrWs ++ joinNL (l1.dropWhile isHdrWs :: ls2) := by
    conv_lhs => rw [← hsplit]
    exact joinNL_first_append _ _ ls2
  rw [dropHeaderWs, hjoin, List.append_assoc,
    dropWhile_append_all delim _ hdelim,
    dropWhile_append_all _ _ (allImp (fun c hc => spaceTab_isHdrWs hc) _ hrun)]
  rcases hd : l1.dropWhile isHdrWs with _ | ⟨a, rest⟩
  · exfalso
    have hps : l1.all isPySpace = true := by
      rw [← hsplit, hd, List.append_nil]
      exact allImp (fun c hc => spaceTab_isPySpace hc) _ hrun
    have h2 := goodLine_pyBool hl1
    rw [pyBool, any_not_of_all hps] at h2
    cases h2
  · have hda : isHdrWs a = false := dropWhile_head_not isHdrWs l1 a rest hd
    rw [show joinNL ((a :: rest) :: ls2) = a :: joinNL (rest :: ls2) from
      joinNL_first_append [a] rest ls2]
    simp only [List.cons_append]
    exact dropWhile_cons_neg a _ hda

theorem sectionBlock_append (hdr delim : List Char) (ls : List (List Char))
    (ws post : List Char) :
    sectionBlock hdr delim ls ws ++ post
      = hdr ++ (delim ++ (joinNL ls ++ '\n' :: (ws ++ '\n' :: post))) := by
  simp [sectionBlock, List.append_assoc]

theorem cleanCapture (delim l1 : List Char) (ls2 : List (List Char)) (ws post : List Char)
    (hdelim : delim.all isHdrWs = true)
    (hls : (l1 :: ls2).all goodLine = true)
    (hrun : (l1.takeWhile isHdrWs).all (fun c => c = ' ' || c = '\t') = true)
    (hws : ws.all isPySpace = true) :
    cleanLines (captureSection (dropHeaderWs
      (delim ++ (joinNL (l1 :: ls2) ++ '\n' :: (ws ++ '\n' :: post)))))
      = (l1 :: ls2).map (stripChars stripSet) := by
  have hl1 : goodLine l1 = true := by
    simp only [List.all_cons, Bool.and_eq_true] at hls; exact hls.1
  have htl : ls2.all goodLine = true := by
    simp only [List.all_cons, Bool.and_eq_true] at hls; exact hls.2
  have hgood : (l1.dropWhile isHdrWs :: ls2).all goodLine = true := by
    simp [List.all_cons, goodLine_dropHdrWs l1 hl1 hrun, htl]
  rw [dropHeaderWs_structured delim l1 ls2 _ hdelim hl1 hrun,
    captureSection_joinNL (l1.dropWhile isHdrWs :: ls2) ws post hgood hws,
    cleanLines_joinNL _ _ hgood]
  simp only [List.map_cons]
  rw [stripChars_dropHdrWs l1 hrun]

theorem extractSection_structured (pat pre hdr delim l1 : List Char)
    (ls2 : List (List Char)) (ws post : List Char)
    (hocc : occursBeforeCI pat pre (sectionBlock hdr delim (l1 :: ls2) ws ++ post) = false)
    (hhdr : eqCI pat hdr = true)
    (hdelim : delim.all isHdrWs = true)
    (hls : (l1 :: ls2).all goodLine = true)
    (hrun : (l1.takeWhile isHdrWs).all (fun c => c = ' ' || c = '\t') = true)
    (hws : ws.all isPySpace = true) :
    extractSection pat (pre ++ (sectionBlock hdr delim (l1 :: ls2) ws ++ post))
      = some ((l1 :: ls2).map (stripChars stripSet)) := by
  have hfind : findCI pat (pre ++ (sectionBlock hdr delim (l1 :: ls2) ws ++ post))
      = some (delim ++ (joinNL (l1 :: ls2) ++ '\n' :: (ws ++ '\n' :: post))) := by
    rw [findCI_append pat pre _ hocc, sectionBlock_append]
    exact findCI_of_ciMatchAt pat _ _ (ciMatchAt_of_eqCI pat hdr hhdr _)
  rw [extractSection, hfind]
  exact congrArg some (cleanCapture delim l1 ls2 ws post hdelim hls hrun hws)

theorem extract_suggestions_structured (pre hdr delim l1 : List Char)
    (ls2 : List (List Char)) (ws post : List Char)
    (hocc : occursBeforeCI patSugg pre (sectionBlock hdr delim (l1 :: ls2) ws ++ post) = false)
    (hhdr : eqCI patSugg hdr = true)
    (hopt : ciMatchAt optSugg
      (delim ++ (joinNL (l1 :: ls2) ++ '\n' :: (ws ++ '\n' :: post))) = none)
    (hdelim : delim.all isHdrWs = true)
    (hls : (l1 :: ls2).all goodLine = true)
    (hrun : (l1.takeWhile isHdrWs).all (fun c => c = ' ' || c = '\t') = true)
    (hws : ws.all isPySpace = true) :
    extract_suggestions (pre ++ (sectionBlock hdr delim (l1 :: ls2) ws ++ post))
      = (l1 :: ls2).map (stripChars stripSet) := by
  have hfind : findCI patSugg (pre ++ (sectionBlock hdr delim (l1 :: ls2) ws ++ post))
      = some (delim ++ (joinNL (l1 :: ls2) ++ '\n' :: (ws ++ '\n' :: post))) := by
    rw [findCI_append patSugg pre _ hocc, sectionBlock_append]
    exact findCI_of_ciMatchAt _ _ _ (ciMatchAt_of_eqCI _ hdr hhdr _)
  rw [extract_suggestions, hfind]
  simp only [hopt]
  exact cleanCapture delim l1 ls2 ws post hdelim hls hrun hws

theorem ciMatchAt_optSugg_colon (s : List Char) :
    ciMatchAt optSugg (':' :: s) = none := by
  rw [show optSugg = ' ' :: "to improve the resume".toList from by decide]
  simp [ciMatchAt, show ¬lowerAscii ' ' = lowerAscii ':' from by decide]

theorem takeWhile_cons_of_pos {p : Char → Bool} {c : Char} (l : List Char)
    (h : p c = true) : (c :: l).takeWhile p = c :: l.takeWhile p := by
  simp [List.takeWhile_cons, h]

theorem takeWhile_cons_of_neg {p : Char → Bool} {c : Char} (l : List Char)
    (h : p c = false) : (c :: l).takeWhile p = [] := by
  simp [List.takeWhile_cons, h]

theorem stripSet_cases {b : Char} (hb : stripSet.contains b = true) :
    b = ' ' ∨ b = '-' ∨ b = '•' ∨ b = '\t' := by
  have : b ∈ stripSet := List.mem_of_elem_eq_true hb
  simpa [stripSet] using this

theorem isHdrWs_of_isPySpace {c : Char} (h : isPySpace c = true) :
    isHdrWs c = true := by
  simp [isHdrWs, h]

theorem stripChars_cons_mem (set : List Char) (b : Char) (s : List Char)
    (hb : set.contains b = true) : stripChars set (b :: s) = stripChars set s := by
  simp only [stripChars, List.dropWhile_cons, hb, if_true]

theorem stripChars_bulleted (b : Char) (hb : stripSet.contains b = true)
    (ls : List (List Char)) :
    (bulleted b ls).map (stripChars stripSet) = ls.map (stripChars stripSet) := by
  induction ls with
  | nil => rfl
  | cons c cs ih =>
    simp only [bulleted, List.map_cons] at ih ⊢
    rw [stripChars_cons_mem stripSet b c hb, ih]

theorem stripSet_not_isLB {b : Char} (hb : stripSet.contains b = true) :
    isLB b = false := by
  rcases stripSet_cases hb with h | h | h | h <;> subst h <;> decide

theorem goodLine_bullet (b : Char) (hb : stripSet.contains b = true) :
    ∀ c : List Char, goodContent c = true → goodLine (b :: c) = true := by
  intro c hc
  rcases c with _ | ⟨a, rest⟩
  · simp [goodContent] at hc
  · simp only [goodContent, Bool.and_eq_true, Bool.not_eq_true'] at hc
    have hps : isPySpace a = false := isPySpace_false_of_hdrWs hc.1
    simp [goodLine, List.all_cons, List.any_cons, stripSet_not_isLB hb, hc.2, hps]

theorem bulleted_goodLine (b : Char) (hb : stripSet.contains b = true) :
    ∀ cs : List (List Char), cs.all goodContent = true →
      (bulleted b cs).all goodLine = true := by
  intro cs hcs
  rw [List.all_eq_true] at hcs ⊢
  intro l hl
  simp only [bulleted, List.mem_map] at hl
  obtain ⟨c, hc, rfl⟩ := hl
  exact goodLine_bullet b hb c (hcs c hc)

theorem run_bullet (b : Char) (hb : stripSet.contains b = true)
    (c : List Char) (hc : goodContent c = true) :
    ((b :: c).takeWhile isHdrWs).all (fun x => x = ' ' || x = '\t') = true := by
  rcases c with _ | ⟨a, rest⟩
  · simp [goodContent] at hc
  · simp only [goodContent, Bool.and_eq_true, Bool.not_eq_true'] at hc
    have ha : isHdrWs a = false := hc.1
    rcases stripSet_cases hb with h | h | h | h <;> subst h
    · rw [takeWhile_cons_of_pos _ (by decide), takeWhile_cons_of_neg _ ha]; decide
    · rw [takeWhile_cons_of_neg _ (by decide)]; decide
    · rw [takeWhile_cons_of_neg _ (by decide)]; decide
    · rw [takeWhile_cons_of_pos _ (by decide), takeWhile_cons_of_neg _ ha]; decide

theorem zip_replicate_right :
    ∀ (l : List (List Char)) (x : List Char),
      l.zip (List.replicate l.length x) = l.map (fun s => (s, x))
  | [], _ => rfl
  | a :: tl, x => by
    simp [List.replicate_succ, zip_replicate_right tl x]

theorem startsWithList_append_self :
    ∀ (p r : List Char), startsWithList p (p ++ r) = true
  | [], _ => rfl
  | c :: p, r => by simp [startsWithList, startsWithList_append_self p r]

/-- C2: for every pair of skill lists, the derived score equals
`round(100 * |matched| / max(1, |matched| + |missing|), 2)`; in particular it
is 0 when both lists are empty, 100 when missing is empty and matched is not,
and 33.33 when one skill matched and two are missing. -/
theorem C2_score_formula :
    (∀ matched missing : List (List Char),
        score matched missing
          = pyRound2 (100 * (matched.length : ℚ) /
              ((max 1 (matched.length + missing.length) : ℕ) : ℚ))) ∧
      score [] [] = 0 ∧
      (∀ matched missing : List (List Char),
        matched ≠ [] → missing = [] → score matched missing = 100) ∧
      score ["A".toList] ["B".toList, "C".toList] = 3333 / 100 := by
  refine ⟨fun _ _ => rfl, ?_, ?_, ?_⟩
  · norm_num [score, pyRound2, roundHalfEven]
  · intro matched missing hm hms
    subst hms
    have hn : matched.length ≠ 0 := fun h => hm (List.eq_nil_of_length_eq_zero h)
    have h1 : (max 1 (matched.length + ([] : List (List Char)).length) : ℕ)
        = matched.length := by
      simp only [List.length_nil, Nat.add_zero]
      exact Nat.max_eq_right (Nat.one_le_iff_ne_zero.mpr hn)
    have hq : ((matched.length : ℕ) : ℚ) ≠ 0 := by exact_mod_cast hn
    rw [score, h1, mul_div_assoc, div_self hq, mul_one]
    norm_num [pyRound2, roundHalfEven]
  · norm_num [score, pyRound2, roundHalfEven]

/-- Witness for C2: one matched skill and no missing skills score 100. -/
theorem C2_score_formula_witness : score ["X".toList] [] = 100 :=
  C2_score_formula.2.2.1 ["X".toList] [] (by decide) rfl

/-- C3: the skill table has exactly `|matched| + |missing|` rows: every
matched item tagged "Matched" in order, then every missing item tagged
"Missing" in order, with no interleaving. -/
theorem C3_skill_table (matched missing : List (List Char)) :
    dfRows (skill_df matched missing)
        = matched.map (fun s => (s, "Matched".toList)) ++
            missing.map (fun s => (s, "Missing".toList)) ∧
      (dfRows (skill_df matched missing)).length
        = matched.length + missing.length := by
  have h : dfRows (skill_df matched missing)
      = matched.map (fun s => (s, "Matched".toList)) ++
          missing.map (fun s => (s, "Missing".toList)) := by
    rw [dfRows, skill_df]
    rw [List.zip_append (by simp)]
    rw [zip_replicate_right, zip_replicate_right]
  exact ⟨h, by rw [h]; simp⟩

/-- C4: the parsers are total functions of the reply string (the embedding
returns a value on every input), and whenever a target section header is not
found by the search, the corresponding section list is empty. -/
theorem C4_missing_header_empty :
    ∀ s : List Char,
      (findCI patMatched s = none → (extract_skills_from_gpt_output s).1 = []) ∧
      (findCI patMissing s = none → (extract_skills_from_gpt_output s).2 = []) ∧
      (findCI patSugg s = none → extract_suggestions s = []) := by
  intro s
  refine ⟨fun h => ?_, fun h => ?_, fun h => ?_⟩
  · simp [extract_skills_from_gpt_output, extractSection, h]
  · simp [extract_skills_from_gpt_output, extractSection, h]
  · simp [extract_suggestions, h]

/-- Witness for C4: a reply with no recognizable headers yields three empty
lists. -/
theorem C4_missing_header_empty_witness :
    (extract_skills_from_gpt_output "no sections here".toList).1 = [] ∧
      (extract_skills_from_gpt_output "no sections here".toList).2 = [] ∧
      extract_suggestions "no sections here".toList = [] := by
  have h := C4_missing_header_empty "no sections here".toList
  exact ⟨h.1 (by decide), h.2.1 (by decide), h.2.2 (by decide)⟩

/-- C6: the concrete scenario reply parses to matched = [Python, SQL],
missing = [Docker], suggestions = [Add metrics], and the score derived from
the parsed lists is 66.67. -/
theorem C6_concrete_scenario :
    extract_skills_from_gpt_output
        "Matched Skills:\n- Python\n- SQL\n\nMissing Skills:\n- Docker\n\nSuggestions to improve the resume:\n- Add metrics\n".toList
        = (["Python".toList, "SQL".toList], ["Docker".toList]) ∧
      extract_suggestions
        "Matched Skills:\n- Python\n- SQL\n\nMissing Skills:\n- Docker\n\nSuggestions to improve the resume:\n- Add metrics\n".toList
        = ["Add metrics".toList] ∧
      score
        (extract_skills_from_gpt_output
          "Matched Skills:\n- Python\n- SQL\n\nMissing Skills:\n- Docker\n\nSuggestions to improve the resume:\n- Add metrics\n".toList).1
        (extract_skills_from_gpt_output
          "Matched Skills:\n- Python\n- SQL\n\nMissing Skills:\n- Docker\n\nSuggestions to improve the resume:\n- Add metrics\n".toList).2
        = 6667 / 100 := by
  have h : extract_skills_from_gpt_output
      "Matched Skills:\n- Python\n- SQL\n\nMissing Skills:\n- Docker\n\nSuggestions to improve the resume:\n- Add metrics\n".toList
      = (["Python".toList, "SQL".toList], ["Docker".toList]) := by decide
  refine ⟨h, by decide, ?_⟩
  rw [h]
  norm_num [score, pyRound2, roundHalfEven]

/-- C8: when `extract_text_from_pdf` reports an extraction failure, the
pipeline shows the error and halts; the outcome is the same for every
completion oracle, so no remote call is consulted. -/
theorem C8_extraction_failure_halts (e jd : List Char)
    (gpt gpt' : List Char → List Char → Option (List Char)) :
    run_submission (extract_text_from_pdf (.error e)) gpt jd
        = .errorShown (errReadFlag ++ e) ∧
      run_submission (extract_text_from_pdf (.error e)) gpt jd
        = run_submission (extract_text_from_pdf (.error e)) gpt' jd := by
  have hsw : startsWithList errFlag (errReadFlag ++ e) = true := by
    rw [show errReadFlag = errFlag ++ " reading PDF: ".toList from by decide,
      List.append_assoc]
    exact startsWithList_append_self errFlag _
  constructor
  · simp [extract_text_from_pdf, run_submission, hsw]
  · simp [extract_text_from_pdf, run_submission, hsw]

/-- C10: the extraction-failure signal is in-band: failures are reported as
a string starting with "❌ Error reading PDF: ", the pipeline halts on any
resume text whose prefix is "❌ Error", and hence a successfully extracted
resume that happens to start with "❌ Error" also halts the pipeline with no
remote call. -/
theorem C10_inband_error_signal :
    (∀ e : List Char, extract_text_from_pdf (.error e) = errReadFlag ++ e) ∧
      (∀ (t jd : List Char) (gpt : List Char → List Char → Option (List Char)),
        startsWithList errFlag t = true →
          run_submission t gpt jd = .errorShown t) ∧
      (∀ (jd : List Char) (gpt : List Char → List Char → Option (List Char)),
        run_submission (extract_text_from_pdf
            (.ok ["❌ Error handling was my specialty at Acme".toList])) gpt jd
          = .errorShown "❌ Error handling was my specialty at Acme".toList) := by
  have hhalts : ∀ (t jd : List Char) (gpt : List Char → List Char → Option (List Char)),
      startsWithList errFlag t = true → run_submission t gpt jd = .errorShown t := by
    intro t jd gpt h
    simp [run_submission, h]
  refine ⟨fun e => rfl, hhalts, fun jd gpt => ?_⟩
  have hx : extract_text_from_pdf (.ok ["❌ Error handling was my specialty at Acme".toList])
      = "❌ Error handling was my specialty at Acme".toList := rfl
  rw [hx]
  exact hhalts _ jd gpt (by decide)

/-- Witness for C10: a resume text starting with "❌ Error" halts the
pipeline. -/
theorem C10_inband_error_signal_witness :
    run_submission "❌ Error test".toList (fun _ _ => none) []
      = .errorShown "❌ Error test".toList :=
  C10_inband_error_signal.2.1 "❌ Error test".toList [] (fun _ _ => none) (by decide)

/-- C1: for every reply consisting of a prefix, a case-insensitive match of
the "Matched Skills" header followed by a non-empty colon/whitespace
delimiter, then N non-empty bullet lines and a blank line (and arbitrary
text after), where the header occurrence is the leftmost one, the parser
returns as the matched list exactly those N lines in order, each stripped of
surrounding whitespace and leading/trailing bullet markers. -/
theorem C1_matched_section (pre hdr delim l1 : List Char)
    (ls2 : List (List Char)) (ws post : List Char)
    (hocc : occursBeforeCI patMatched pre
      (sectionBlock hdr delim (l1 :: ls2) ws ++ post) = false)
    (hhdr : eqCI patMatched hdr = true)
    (_hdelim0 : delim ≠ [])
    (hdelim : delim.all isHdrWs = true)
    (hls : (l1 :: ls2).all goodLine = true)
    (hrun : (l1.takeWhile isHdrWs).all (fun c => c = ' ' || c = '\t') = true)
    (hws : ws.all isPySpace = true) :
    (extract_skills_from_gpt_output
        (pre ++ (sectionBlock hdr delim (l1 :: ls2) ws ++ post))).1
        = (l1 :: ls2).map (stripChars stripSet) ∧
      (extract_skills_from_gpt_output
        (pre ++ (sectionBlock hdr delim (l1 :: ls2) ws ++ post))).1.length
        = (l1 :: ls2).length := by
  have h := extractSection_structured patMatched pre hdr delim l1 ls2 ws post
    hocc hhdr hdelim hls hrun hws
  constructor
  · simp [extract_skills_from_gpt_output, h]
  · simp [extract_skills_from_gpt_output, h]

/-- Witness for C1: a concrete upper-case header with two bullet lines. -/
theorem C1_matched_section_witness :
    (extract_skills_from_gpt_output
        ("Resume analysis\n\n".toList ++
          (sectionBlock "MATCHED Skills".toList [':', '\n']
              ["- Python 3".toList, "- SQL".toList] [] ++
            "Missing Skills:\n- Docker\n".toList))).1
      = ["Python 3".toList, "SQL".toList] := by
  have h := C1_matched_section "Resume analysis\n\n".toList "MATCHED Skills".toList
    [':', '\n'] "- Python 3".toList ["- SQL".toList] [] "Missing Skills:\n- Docker\n".toList
    (by decide) (by decide) (by decide) (by decide) (by decide) (by decide) (by decide)
  rw [h.1]
  decide

/-- C9: when the header is immediately followed by one or more blank lines
before the first content line, the greedy `[:\s]*` of the header pattern
absorbs them, so the parser still returns the section's content rather than
an empty list. -/
theorem C9_blank_lines_after_header (pre blanks l1 : List Char)
    (ls2 : List (List Char)) (ws post : List Char)
    (hocc : occursBeforeCI patMatched pre
      (sectionBlock "Matched Skills".toList (':' :: '\n' :: (blanks ++ ['\n']))
        (l1 :: ls2) ws ++ post) = false)
    (hblanks : blanks.all isPySpace = true)
    (hls : (l1 :: ls2).all goodLine = true)
    (hrun : (l1.takeWhile isHdrWs).all (fun c => c = ' ' || c = '\t') = true)
    (hws : ws.all isPySpace = true) :
    (extract_skills_from_gpt_output
        (pre ++ (sectionBlock "Matched Skills".toList
          (':' :: '\n' :: (blanks ++ ['\n'])) (l1 :: ls2) ws ++ post))).1
        = (l1 :: ls2).map (stripChars stripSet) ∧
      (extract_skills_from_gpt_output
        (pre ++ (sectionBlock "Matched Skills".toList
          (':' :: '\n' :: (blanks ++ ['\n'])) (l1 :: ls2) ws ++ post))).1 ≠ [] := by
  have hdelim : (':' :: '\n' :: (blanks ++ ['\n'])).all isHdrWs = true := by
    simp only [List.all_cons, List.all_append, Bool.and_eq_true]
    refine ⟨by decide, by decide, allImp (fun c hc => isHdrWs_of_isPySpace hc) _ hblanks, by decide⟩
  have h := extractSection_structured patMatched pre "Matched Skills".toList
    (':' :: '\n' :: (blanks ++ ['\n'])) l1 ls2 ws post hocc (by decide) hdelim hls hrun hws
  have h1 : (extract_skills_from_gpt_output
      (pre ++ (sectionBlock "Matched Skills".toList
        (':' :: '\n' :: (blanks ++ ['\n'])) (l1 :: ls2) ws ++ post))).1
      = (l1 :: ls2).map (stripChars stripSet) := by
    show (extractSection patMatched
        (pre ++ (sectionBlock "Matched Skills".toList
          (':' :: '\n' :: (blanks ++ ['\n'])) (l1 :: ls2) ws ++ post))).getD []
      = (l1 :: ls2).map (stripChars stripSet)
    rw [h]
    rfl
  exact ⟨h1, by rw [h1]; simp⟩

/-- Witness for C9: two blank lines between the header and the bullet
lines still yield the section content. -/
theorem C9_blank_lines_after_header_witness :
    (extract_skills_from_gpt_output
        ("Intro\n\n".toList ++
          (sectionBlock "Matched Skills".toList
              (':' :: '\n' :: (['\n'] ++ ['\n']))
              ["- Python".toList] [] ++ "tail".toList))).1
      = ["Python".toList] := by
  have h := C9_blank_lines_after_header "Intro\n\n".toList ['\n'] "- Python".toList
    [] [] "tail".toList (by decide) (by decide) (by decide) (by decide) (by decide)
  rw [h.1]
  decide

/-- C5 counterexample: the two section scans are independent regexes, not a
partition of the lines.  With no blank line between the sections, the
Matched-Skills capture runs across the Missing-Skills header, so the raw
line "- B" is captured by both scans and its trimmed content "B" appears in
both lists, refuting the claimed mutual exclusivity. -/
theorem C5_counterexample :
    "B".toList ∈ (extract_skills_from_gpt_output
        "Matched Skills:\n- A\nMissing Skills:\n- B\n\n".toList).1 ∧
      "B".toList ∈ (extract_skills_from_gpt_output
        "Matched Skills:\n- A\nMissing Skills:\n- B\n\n".toList).2 := by
  decide

/-- C5 amended: when a blank line closes the matched section before the
missing header, the two lists are computed from disjoint regions of the
reply: matched is exactly the matched block's cleaned lines and missing
exactly the missing block's cleaned lines. -/
theorem C5_amended (pre hdrM delimM lM1 : List Char) (lsM2 : List (List Char))
    (wsM mid hdrN delimN lN1 : List Char) (lsN2 : List (List Char)) (wsN post : List Char)
    (hoccM : occursBeforeCI patMatched pre
      (sectionBlock hdrM delimM (lM1 :: lsM2) wsM ++
        (mid ++ (sectionBlock hdrN delimN (lN1 :: lsN2) wsN ++ post))) = false)
    (hoccN : occursBeforeCI patMissing
      (pre ++ (sectionBlock hdrM delimM (lM1 :: lsM2) wsM ++ mid))
      (sectionBlock hdrN delimN (lN1 :: lsN2) wsN ++ post) = false)
    (hhdrM : eqCI patMatched hdrM = true) (hhdrN : eqCI patMissing hdrN = true)
    (hdelimM : delimM.all isHdrWs = true) (hdelimN : delimN.all isHdrWs = true)
    (hlsM : (lM1 :: lsM2).all goodLine = true) (hlsN : (lN1 :: lsN2).all goodLine = true)
    (hrunM : (lM1.takeWhile isHdrWs).all (fun c => c = ' ' || c = '\t') = true)
    (hrunN : (lN1.takeWhile isHdrWs).all (fun c => c = ' ' || c = '\t') = true)
    (hwsM : wsM.all isPySpace = true) (hwsN : wsN.all isPySpace = true) :
    extract_skills_from_gpt_output
        (pre ++ (sectionBlock hdrM delimM (lM1 :: lsM2) wsM ++
          (mid ++ (sectionBlock hdrN delimN (lN1 :: lsN2) wsN ++ post))))
      = ((lM1 :: lsM2).map (stripChars stripSet),
          (lN1 :: lsN2).map (stripChars stripSet)) := by
  have hM := extractSection_structured patMatched pre hdrM delimM lM1 lsM2 wsM
    (mid ++ (sectionBlock hdrN delimN (lN1 :: lsN2) wsN ++ post))
    hoccM hhdrM hdelimM hlsM hrunM hwsM
  have hN := extractSection_structured patMissing
    (pre ++ (sectionBlock hdrM delimM (lM1 :: lsM2) wsM ++ mid))
    hdrN delimN lN1 lsN2 wsN post hoccN hhdrN hdelimN hlsN hrunN hwsN
  have hre : (pre ++ (sectionBlock hdrM delimM (lM1 :: lsM2) wsM ++ mid)) ++
      (sectionBlock hdrN delimN (lN1 :: lsN2) wsN ++ post)
      = pre ++ (sectionBlock hdrM delimM (lM1 :: lsM2) wsM ++
          (mid ++ (sectionBlock hdrN delimN (lN1 :: lsN2) wsN ++ post))) := by
    simp only [List.append_assoc]
  rw [hre] at hN
  show ((extractSection patMatched
          (pre ++ (sectionBlock hdrM delimM (lM1 :: lsM2) wsM ++
            (mid ++ (sectionBlock hdrN delimN (lN1 :: lsN2) wsN ++ post))))).getD [],
        (extractSection patMissing
          (pre ++ (sectionBlock hdrM delimM (lM1 :: lsM2) wsM ++
            (mid ++ (sectionBlock hdrN delimN (lN1 :: lsN2) wsN ++ post))))).getD [])
      = ((lM1 :: lsM2).map (stripChars stripSet),
          (lN1 :: lsN2).map (stripChars stripSet))
  rw [hM, hN]
  rfl

/-- Witness for C5's amended statement: blank-line-separated sections give
disjoint matched and missing lists. -/
theorem C5_amended_witness :
    extract_skills_from_gpt_output
        ([] ++ (sectionBlock "Matched Skills".toList [':', '\n'] ["- A".toList] [] ++
          ([] ++ (sectionBlock "Missing Skills".toList [':', '\n'] ["- B".toList] [] ++ []))))
      = (["A".toList], ["B".toList]) := by
  have h := C5_amended [] "Matched Skills".toList [':', '\n'] "- A".toList []
    [] [] "Missing Skills".toList [':', '\n'] "- B".toList [] [] []
    (by decide) (by decide) (by decide) (by decide) (by decide) (by decide)
    (by decide) (by decide) (by decide) (by decide) (by decide) (by decide)
  rw [h]
  decide

theorem threeSection_parse (b : Char) (cM1 : List Char) (csM : List (List Char))
    (cN1 : List Char) (csN : List (List Char)) (cS1 : List Char) (csS : List (List Char))
    (hb : stripSet.contains b = true)
    (hM : (cM1 :: csM).all goodContent = true)
    (hN : (cN1 :: csN).all goodContent = true)
    (hS : (cS1 :: csS).all goodContent = true)
    (hoccN : occursBeforeCI patMissing
      (sectionBlock patMatched [':', '\n'] (bulleted b (cM1 :: csM)) [])
      (sectionBlock patMissing [':', '\n'] (bulleted b (cN1 :: csN)) [] ++
        (sectionBlock patSugg [':', '\n'] (bulleted b (cS1 :: csS)) [] ++ [])) = false)
    (hoccS : occursBeforeCI patSugg
      (sectionBlock patMatched [':', '\n'] (bulleted b (cM1 :: csM)) [] ++
        sectionBlock patMissing [':', '\n'] (bulleted b (cN1 :: csN)) [])
      (sectionBlock patSugg [':', '\n'] (bulleted b (cS1 :: csS)) [] ++ []) = false) :
    extract_skills_from_gpt_output
        (threeSectionReply b (cM1 :: csM) (cN1 :: csN) (cS1 :: csS))
        = ((cM1 :: csM).map (stripChars stripSet),
            (cN1 :: csN).map (stripChars stripSet)) ∧
      extract_suggestions (threeSectionReply b (cM1 :: csM) (cN1 :: csN) (cS1 :: csS))
        = (cS1 :: csS).map (stripChars stripSet) := by
  have hMc : goodContent cM1 = true := by
    simp only [List.all_cons, Bool.and_eq_true] at hM; exact hM.1
  have hNc : goodContent cN1 = true := by
    simp only [List.all_cons, Bool.and_eq_true] at hN; exact hN.1
  have hSc : goodContent cS1 = true := by
    simp only [List.all_cons, Bool.and_eq_true] at hS; exact hS.1
  have hgM : ((b :: cM1) :: bulleted b csM).all goodLine = true :=
    bulleted_goodLine b hb (cM1 :: csM) hM
  have hgN : ((b :: cN1) :: bulleted b csN).all goodLine = true :=
    bulleted_goodLine b hb (cN1 :: csN) hN
  have hgS : ((b :: cS1) :: bulleted b csS).all goodLine = true :=
    bulleted_goodLine b hb (cS1 :: csS) hS
  have hbulM : bulleted b (cM1 :: csM) = (b :: cM1) :: bulleted b csM := rfl
  have hbulN : bulleted b (cN1 :: csN) = (b :: cN1) :: bulleted b csN := rfl
  have hbulS : bulleted b (cS1 :: csS) = (b :: cS1) :: bulleted b csS := rfl
  have hMth := extractSection_structured patMatched [] patMatched [':', '\n']
    (b :: cM1) (bulleted b csM) []
    (sectionBlock patMissing [':', '\n'] (bulleted b (cN1 :: csN)) [] ++
      (sectionBlock patSugg [':', '\n'] (bulleted b (cS1 :: csS)) [] ++ []))
    rfl (by decide) (by decide) hgM (run_bullet b hb cM1 hMc) (by decide)
  rw [List.nil_append, ← hbulM] at hMth
  rw [stripChars_bulleted b hb] at hMth
  have hNth := extractSection_structured patMissing
    (sectionBlock patMatched [':', '\n'] (bulleted b (cM1 :: csM)) [])
    patMissing [':', '\n'] (b :: cN1) (bulleted b csN) []
    (sectionBlock patSugg [':', '\n'] (bulleted b (cS1 :: csS)) [] ++ [])
    hoccN (by decide) (by decide) hgN (run_bullet b hb cN1 hNc) (by decide)
  rw [← hbulN] at hNth
  rw [stripChars_bulleted b hb] at hNth
  have hSth := extract_suggestions_structured
    (sectionBlock patMatched [':', '\n'] (bulleted b (cM1 :: csM)) [] ++
      sectionBlock patMissing [':', '\n'] (bulleted b (cN1 :: csN)) [])
    patSugg [':', '\n'] (b :: cS1) (bulleted b csS) [] []
    hoccS (by decide) (ciMatchAt_optSugg_colon _) (by decide) hgS
    (run_bullet b hb cS1 hSc) (by decide)
  rw [← hbulS] at hSth
  rw [stripChars_bulleted b hb, List.append_assoc] at hSth
  refine ⟨?_, ?_⟩
  · show ((extractSection patMatched
          (threeSectionReply b (cM1 :: csM) (cN1 :: csN) (cS1 :: csS))).getD [],
        (extractSection patMissing
          (threeSectionReply b (cM1 :: csM) (cN1 :: csN) (cS1 :: csS))).getD [])
      = ((cM1 :: csM).map (stripChars stripSet),
          (cN1 :: csN).map (stripChars stripSet))
    rw [threeSectionReply, hMth, hNth]
    rfl
  · rw [threeSectionReply]
    exact hSth

/-- C7: replacing the bullet marker at the start of every section content
line with another supported marker (hyphen, bullet character, tab, or
space — the characters the line cleaner strips) leaves all three parsed
lists unchanged. -/
theorem C7_bullet_marker_independence (b1 b2 : Char)
    (cM1 : List Char) (csM : List (List Char))
    (cN1 : List Char) (csN : List (List Char))
    (cS1 : List Char) (csS : List (List Char))
    (hb1 : stripSet.contains b1 = true) (hb2 : stripSet.contains b2 = true)
    (hM : (cM1 :: csM).all goodContent = true)
    (hN : (cN1 :: csN).all goodContent = true)
    (hS : (cS1 :: csS).all goodContent = true)
    (hoccN1 : occursBeforeCI patMissing
      (sectionBlock patMatched [':', '\n'] (bulleted b1 (cM1 :: csM)) [])
      (sectionBlock patMissing [':', '\n'] (bulleted b1 (cN1 :: csN)) [] ++
        (sectionBlock patSugg [':', '\n'] (bulleted b1 (cS1 :: csS)) [] ++ [])) = false)
    (hoccS1 : occursBeforeCI patSugg
      (sectionBlock patMatched [':', '\n'] (bulleted b1 (cM1 :: csM)) [] ++
        sectionBlock patMissing [':', '\n'] (bulleted b1 (cN1 :: csN)) [])
      (sectionBlock patSugg [':', '\n'] (bulleted b1 (cS1 :: csS)) [] ++ []) = false)
    (hoccN2 : occursBeforeCI patMissing
      (sectionBlock patMatched [':', '\n'] (bulleted b2 (cM1 :: csM)) [])
      (sectionBlock patMissing [':', '\n'] (bulleted b2 (cN1 :: csN)) [] ++
        (sectionBlock patSugg [':', '\n'] (bulleted b2 (cS1 :: csS)) [] ++ [])) = false)
    (hoccS2 : occursBeforeCI patSugg
      (sectionBlock patMatched [':', '\n'] (bulleted b2 (cM1 :: csM)) [] ++
        sectionBlock patMissing [':', '\n'] (bulleted b2 (cN1 :: csN)) [])
      (sectionBlock patSugg [':', '\n'] (bulleted b2 (cS1 :: csS)) [] ++ []) = false) :
    extract_skills_from_gpt_output
        (threeSectionReply b1 (cM1 :: csM) (cN1 :: csN) (cS1 :: csS))
        = extract_skills_from_gpt_output
          (threeSectionReply b2 (cM1 :: csM) (cN1 :: csN) (cS1 :: csS)) ∧
      extract_suggestions (threeSectionReply b1 (cM1 :: csM) (cN1 :: csN) (cS1 :: csS))
        = extract_suggestions (threeSectionReply b2 (cM1 :: csM) (cN1 :: csN) (cS1 :: csS)) := by
  have h1 := threeSection_parse b1 cM1 csM cN1 csN cS1 csS hb1 hM hN hS hoccN1 hoccS1
  have h2 := threeSection_parse b2 cM1 csM cN1 csN cS1 csS hb2 hM hN hS hoccN2 hoccS2
  exact ⟨h1.1.trans h2.1.symm, h1.2.trans h2.2.symm⟩

/-- Witness for C7: hyphen bullets and tab bullets parse identically. -/
theorem C7_bullet_marker_independence_witness :
    extract_skills_from_gpt_output
        (threeSectionReply '-' ["Python".toList, "SQL".toList] ["Docker".toList]
          ["Add metrics".toList])
        = extract_skills_from_gpt_output
          (threeSectionReply '\t' ["Python".toList, "SQL".toList] ["Docker".toList]
            ["Add metrics".toList]) ∧
      extract_suggestions
        (threeSectionReply '-' ["Python".toList, "SQL".toList] ["Docker".toList]
          ["Add metrics".toList])
        = extract_suggestions
          (threeSectionReply '\t' ["Python".toList, "SQL".toList] ["Docker".toList]
            ["Add metrics".toList]) :=
  C7_bullet_marker_independence '-' '\t' "Python".toList ["SQL".toList]
    "Docker".toList [] "Add metrics".toList []
    (by decide) (by decide) (by decide) (by decide) (by decide)
    (by decide) (by decide) (by decide) (by decide)
